import Mathlib

/-!
Verification of the LAPD calls-for-service data pipeline
(`src/process_lapd_data.py` and `src/update_data.py`).

A pandas `DataFrame` is shallowly embedded as a `Frame`: a `Schema` of
column-presence flags plus a list of `Row`s.  A cell holds a `Val`
(string, parsed timestamp, number, or null — pandas `NaN`/`NaT`).
Column operations of the source (`df['c'] = ...`, `df.rename`,
`pd.to_datetime(..., errors='coerce')`, `.dt.year`, `.str.strip()`,
`dropna`, `drop_duplicates(keep='last')`, `pd.concat`) are modelled as
per-row maps plus schema updates; a branch of the form
`if 'c' in df.columns:` becomes a test of the corresponding schema flag,
applied pointwise inside the row map (same semantics, since pandas
column assignment is itself row-wise).
-/

/-- A cell value: string, parsed timestamp (encoded as a natural),
numeric, or missing (`NaN` / `NaT` / `None`). -/
inductive Val where
  | str (s : String)
  | date (d : Nat)
  | nat (n : Nat)
  | null
deriving Repr, DecidableEq

/-- `pandas.isna` on one cell. -/
def Val.isNull : Val → Bool
  | .null => true
  | _ => false

/-- One record, with a field for every column name that appears anywhere
in the pipeline.  A field of a column absent from the frame's schema is
dead data that no operation reads. -/
structure Row where
  date_rptd : Val := .null
  date_occ : Val := .null
  time_occ : Val := .null
  report_date : Val := .null
  occurrence_date : Val := .null
  occurrence_time : Val := .null
  dispatch_date : Val := .null
  dispatch_time : Val := .null
  call_type_text : Val := .null
  call_type_description : Val := .null
  call_type : Val := .null
  area_occ : Val := .null
  incident_number : Val := .null
  primary_date : Val := .null
  year : Val := .null
  month : Val := .null
  day_of_week : Val := .null
  hour : Val := .null
  occurrence_time_hour : Val := .null
  dispatch_time_hour : Val := .null
  source_dataset : Val := .null
  source_year : Val := .null
deriving Repr, DecidableEq

/-- Which columns a frame has (`'c' in df.columns`). -/
structure Schema where
  has_date_rptd : Bool := false
  has_date_occ : Bool := false
  has_time_occ : Bool := false
  has_report_date : Bool := false
  has_occurrence_date : Bool := false
  has_occurrence_time : Bool := false
  has_dispatch_date : Bool := false
  has_dispatch_time : Bool := false
  has_call_type_text : Bool := false
  has_call_type_description : Bool := false
  has_call_type : Bool := false
  has_area_occ : Bool := false
  has_incident_number : Bool := false
  has_primary_date : Bool := false
  has_year : Bool := false
  has_month : Bool := false
  has_day_of_week : Bool := false
  has_hour : Bool := false
  has_occurrence_time_hour : Bool := false
  has_dispatch_time_hour : Bool := false
  has_source_dataset : Bool := false
  has_source_year : Bool := false
deriving Repr, DecidableEq

/-- A pandas DataFrame: column set plus ordered rows. -/
structure Frame where
  schema : Schema
  rows : List Row
deriving Repr, DecidableEq

/-! ### Scalar operations (models of the pandas library calls) -/

def isDigitCh (c : Char) : Bool := 48 ≤ c.toNat && c.toNat ≤ 57

def digitVal (c : Char) : Nat := c.toNat - 48

/-- Model of `pd.to_datetime(s, errors='coerce')` on a string cell:
accepts an ISO-style `YYYY-MM-DD...` prefix, encodes the day as
`y*10000 + m*100 + d`; anything else fails to parse. -/
def parseDateStr (s : String) : Option Nat :=
  match s.data with
  | y1 :: y2 :: y3 :: y4 :: '-' :: m1 :: m2 :: '-' :: d1 :: d2 :: _ =>
    if isDigitCh y1 && isDigitCh y2 && isDigitCh y3 && isDigitCh y4 &&
       isDigitCh m1 && isDigitCh m2 && isDigitCh d1 && isDigitCh d2 then
      let y := ((digitVal y1 * 10 + digitVal y2) * 10 + digitVal y3) * 10 + digitVal y4
      let mo := digitVal m1 * 10 + digitVal m2
      let d := digitVal d1 * 10 + digitVal d2
      if 1 ≤ mo && mo ≤ 12 && 1 ≤ d && d ≤ 31 then some (y * 10000 + mo * 100 + d)
      else none
    else none
  | _ => none

/-- `pd.to_datetime(col, errors='coerce')` on one cell: an already-parsed
timestamp passes through, a string is parsed or coerced to null, and any
other value coerces to null. -/
def parseDate (v : Val) : Val :=
  match v with
  | .date d => .date d
  | .str s =>
    match parseDateStr s with
    | some d => .date d
    | none => .null
  | _ => .null

/-- Model of `pd.to_datetime(s, format='%H:%M:%S', errors='coerce').dt.hour`
on a string cell: requires exactly `HH:MM:SS` in range. -/
def parseHourStr (s : String) : Option Nat :=
  match s.data with
  | h1 :: h2 :: ':' :: m1 :: m2 :: ':' :: s1 :: s2 :: [] =>
    if isDigitCh h1 && isDigitCh h2 && isDigitCh m1 && isDigitCh m2 &&
       isDigitCh s1 && isDigitCh s2 then
      let h := digitVal h1 * 10 + digitVal h2
      let mi := digitVal m1 * 10 + digitVal m2
      let se := digitVal s1 * 10 + digitVal s2
      if h ≤ 23 && mi ≤ 59 && se ≤ 59 then some h else none
    else none
  | _ => none

/-- One cell of `pd.to_datetime(col, format='%H:%M:%S', errors='coerce').dt.hour`. -/
def parseHour (v : Val) : Val :=
  match v with
  | .str s =>
    match parseHourStr s with
    | some h => .nat h
    | none => .null
  | _ => .null

/-- `.dt.year` on one cell (null on `NaT`). -/
def yearV : Val → Val
  | .date d => .nat (d / 10000)
  | _ => .null

/-- `.dt.month` on one cell. -/
def monthV : Val → Val
  | .date d => .nat (d / 100 % 100)
  | _ => .null

/-- `.dt.day_name()` on one cell, via a fixed weekday table. -/
def dayNameV : Val → Val
  | .date d => .str ((["Monday", "Tuesday", "Wednesday", "Thursday",
      "Friday", "Saturday", "Sunday"].getD (d % 7) ""))
  | _ => .null

/-- Whitespace for Python `str.strip`. -/
def isWSCh (c : Char) : Bool :=
  c.toNat == 32 || c.toNat == 9 || c.toNat == 10 || c.toNat == 13 ||
  c.toNat == 11 || c.toNat == 12

/-- Strip leading and trailing whitespace from a character list. -/
def trimChars (l : List Char) : List Char :=
  ((l.dropWhile isWSCh).reverse.dropWhile isWSCh).reverse

def trimStr (s : String) : String := ⟨trimChars s.data⟩

/-- One cell of `.str.strip()`: strings are trimmed, everything else
(including null) becomes null, as pandas string accessors yield `NaN`
on non-string values. -/
def stripV : Val → Val
  | .str s => .str (trimStr s)
  | _ => .null

/-! ### Schema Normalizer, full-build path
(`process_lapd_data.clean_and_process_data`, lines 90–165),
decomposed into the source's sequential column passes. -/

/-- Lines 107–111: prefer `call_type_text`, else `call_type_description`,
for the canonical `call_type` column. -/
def resolveCallType (f : Frame) : Frame :=
  { schema := { f.schema with
      has_call_type := f.schema.has_call_type_text ||
        f.schema.has_call_type_description || f.schema.has_call_type },
    rows := f.rows.map fun r =>
      { r with call_type :=
          if f.schema.has_call_type_text then r.call_type_text
          else if f.schema.has_call_type_description then r.call_type_description
          else r.call_type } }

/-- Lines 113–115 (and `update_data.py` lines 160–168): the generic rename
pass `date_rptd → report_date`, `date_occ → occurrence_date`,
`time_occ → occurrence_time` (the `dispatch_*` entries rename to
themselves and are no-ops). -/
def renameCols (f : Frame) : Frame :=
  { schema := { f.schema with
      has_report_date := f.schema.has_date_rptd || f.schema.has_report_date,
      has_occurrence_date := f.schema.has_date_occ || f.schema.has_occurrence_date,
      has_occurrence_time := f.schema.has_time_occ || f.schema.has_occurrence_time,
      has_date_rptd := false,
      has_date_occ := false,
      has_time_occ := false },
    rows := f.rows.map fun r =>
      { r with
        report_date := if f.schema.has_date_rptd then r.date_rptd else r.report_date,
        occurrence_date := if f.schema.has_date_occ then r.date_occ else r.occurrence_date,
        occurrence_time := if f.schema.has_time_occ then r.time_occ else r.occurrence_time,
        date_rptd := if f.schema.has_date_rptd then .null else r.date_rptd,
        date_occ := if f.schema.has_date_occ then .null else r.date_occ,
        time_occ := if f.schema.has_time_occ then .null else r.time_occ } }

/-- Lines 118–121 (and `update_data.py` lines 171–174): parse each of the
three date columns that is present, coercing failures to null. -/
def parseDates (f : Frame) : Frame :=
  { schema := f.schema,
    rows := f.rows.map fun r =>
      { r with
        report_date := if f.schema.has_report_date then parseDate r.report_date else r.report_date,
        occurrence_date := if f.schema.has_occurrence_date then parseDate r.occurrence_date else r.occurrence_date,
        dispatch_date := if f.schema.has_dispatch_date then parseDate r.dispatch_date else r.dispatch_date } }

/-- Lines 124–131 (and `update_data.py` lines 177–184): `primary_date` by
strict priority occurrence, report, dispatch; `NaT` if none present. -/
def selectPrimary (f : Frame) : Frame :=
  { schema := { f.schema with has_primary_date := true },
    rows := f.rows.map fun r =>
      { r with primary_date :=
          if f.schema.has_occurrence_date then r.occurrence_date
          else if f.schema.has_report_date then r.report_date
          else if f.schema.has_dispatch_date then r.dispatch_date
          else .null } }

/-- Lines 134–139: derive `year`, `month`, `day_of_week` from
`primary_date`, and initialise `hour` to all-`NaT`. -/
def addDerived (f : Frame) : Frame :=
  { schema := { f.schema with
      has_year := true, has_month := true, has_day_of_week := true, has_hour := true },
    rows := f.rows.map fun r =>
      { r with
        year := yearV r.primary_date,
        month := monthV r.primary_date,
        day_of_week := dayNameV r.primary_date,
        hour := .null } }

/-- Lines 142–150, loop iteration for `occurrence_time`: compute
`occurrence_time_hour` and, when the `hour` column is absent or entirely
null, copy it into `hour`. -/
def occTimePhase (f : Frame) : Frame :=
  let cond := !f.schema.has_hour || f.rows.all fun r => r.hour.isNull
  { schema := { f.schema with
      has_occurrence_time_hour :=
        f.schema.has_occurrence_time || f.schema.has_occurrence_time_hour,
      has_hour := f.schema.has_hour || (f.schema.has_occurrence_time && cond) },
    rows := f.rows.map fun r =>
      { r with
        occurrence_time_hour :=
          if f.schema.has_occurrence_time then parseHour r.occurrence_time
          else r.occurrence_time_hour,
        hour :=
          if f.schema.has_occurrence_time && cond then parseHour r.occurrence_time
          else r.hour } }

/-- Lines 142–150, loop iteration for `dispatch_time`. -/
def dispatchTimePhase (f : Frame) : Frame :=
  let cond := !f.schema.has_hour || f.rows.all fun r => r.hour.isNull
  { schema := { f.schema with
      has_dispatch_time_hour :=
        f.schema.has_dispatch_time || f.schema.has_dispatch_time_hour,
      has_hour := f.schema.has_hour || (f.schema.has_dispatch_time && cond) },
    rows := f.rows.map fun r =>
      { r with
        dispatch_time_hour :=
          if f.schema.has_dispatch_time then parseHour r.dispatch_time
          else r.dispatch_time_hour,
        hour :=
          if f.schema.has_dispatch_time && cond then parseHour r.dispatch_time
          else r.hour } }

/-- Lines 153–158: trim whitespace on `call_type` and `area_occ` when present. -/
def stripText (f : Frame) : Frame :=
  { schema := f.schema,
    rows := f.rows.map fun r =>
      { r with
        call_type := if f.schema.has_call_type then stripV r.call_type else r.call_type,
        area_occ := if f.schema.has_area_occ then stripV r.area_occ else r.area_occ } }

/-- All column passes of `clean_and_process_data` (lines 94–158), i.e. the
function up to but not including the final `dropna`. -/
def normalizeCols (f : Frame) : Frame :=
  stripText (dispatchTimePhase (occTimePhase (addDerived (selectPrimary
    (parseDates (renameCols (resolveCallType f)))))))

/-- Lines 160–162: `df.dropna(subset=['primary_date'])`. -/
def dropInvalidDates (f : Frame) : Frame :=
  { f with rows := f.rows.filter fun r => !r.primary_date.isNull }

/-- `process_lapd_data.clean_and_process_data` (lines 90–165): the cleaned
frame together with the printed count of removed records
(`initial_count - len(df)`, line 163). -/
def clean_and_process_data (f : Frame) : Frame × Nat :=
  let n := normalizeCols f
  let kept := dropInvalidDates n
  (kept, n.rows.length - kept.rows.length)

/-! ### Schema Normalizer, incremental-update path
(`LAPDDataUpdater.clean_data`, `update_data.py` lines 156–200).
It shares the rename, date-parse and primary-date passes, has no
call-type resolution and no hour computation, and strips
`call_type_text` (not `call_type`). -/

/-- `update_data.py` lines 187–189: `year`, `month`, `day_of_week` only. -/
def addDerivedU (f : Frame) : Frame :=
  { schema := { f.schema with
      has_year := true, has_month := true, has_day_of_week := true },
    rows := f.rows.map fun r =>
      { r with
        year := yearV r.primary_date,
        month := monthV r.primary_date,
        day_of_week := dayNameV r.primary_date } }

/-- `update_data.py` lines 192–195: trim `call_type_text` and `area_occ`. -/
def stripTextU (f : Frame) : Frame :=
  { schema := f.schema,
    rows := f.rows.map fun r =>
      { r with
        call_type_text :=
          if f.schema.has_call_type_text then stripV r.call_type_text else r.call_type_text,
        area_occ := if f.schema.has_area_occ then stripV r.area_occ else r.area_occ } }

/-- Column passes of `LAPDDataUpdater.clean_data` (lines 158–195). -/
def normalizeColsU (f : Frame) : Frame :=
  stripTextU (addDerivedU (selectPrimary (parseDates (renameCols f))))

/-- `LAPDDataUpdater.clean_data` (lines 156–200). -/
def clean_data (f : Frame) : Frame :=
  dropInvalidDates (normalizeColsU f)

/-! ### Merge/Dedup Coordinator (`update_data.py`) -/

/-- `pd.concat([a, b], ignore_index=True, sort=False)`: union of columns,
rows of `a` then rows of `b`. -/
def orSchema (a b : Schema) : Schema :=
  { has_date_rptd := a.has_date_rptd || b.has_date_rptd,
    has_date_occ := a.has_date_occ || b.has_date_occ,
    has_time_occ := a.has_time_occ || b.has_time_occ,
    has_report_date := a.has_report_date || b.has_report_date,
    has_occurrence_date := a.has_occurrence_date || b.has_occurrence_date,
    has_occurrence_time := a.has_occurrence_time || b.has_occurrence_time,
    has_dispatch_date := a.has_dispatch_date || b.has_dispatch_date,
    has_dispatch_time := a.has_dispatch_time || b.has_dispatch_time,
    has_call_type_text := a.has_call_type_text || b.has_call_type_text,
    has_call_type_description := a.has_call_type_description || b.has_call_type_description,
    has_call_type := a.has_call_type || b.has_call_type,
    has_area_occ := a.has_area_occ || b.has_area_occ,
    has_incident_number := a.has_incident_number || b.has_incident_number,
    has_primary_date := a.has_primary_date || b.has_primary_date,
    has_year := a.has_year || b.has_year,
    has_month := a.has_month || b.has_month,
    has_day_of_week := a.has_day_of_week || b.has_day_of_week,
    has_hour := a.has_hour || b.has_hour,
    has_occurrence_time_hour := a.has_occurrence_time_hour || b.has_occurrence_time_hour,
    has_dispatch_time_hour := a.has_dispatch_time_hour || b.has_dispatch_time_hour,
    has_source_dataset := a.has_source_dataset || b.has_source_dataset,
    has_source_year := a.has_source_year || b.has_source_year }

def concatFrames (a b : Frame) : Frame :=
  { schema := orSchema a.schema b.schema, rows := a.rows ++ b.rows }

/-- `df.drop_duplicates(subset=['incident_number'], keep='last')`:
a row is kept iff no later row shares its `incident_number`; the
relative order of the kept rows is preserved. -/
def keepLast : List Row → List Row
  | [] => []
  | r :: rest =>
    if rest.any fun x => decide (x.incident_number = r.incident_number) then keepLast rest
    else r :: keepLast rest

/-- `update_data.py` lines 136–137: tag the fresh batch with its vintage. -/
def withSource (f : Frame) : Frame :=
  { schema := { f.schema with has_source_dataset := true, has_source_year := true },
    rows := f.rows.map fun r =>
      { r with
        source_dataset := .str "LAPD Calls for Service 2024 to Present",
        source_year := .nat 2024 } }

/-- `LAPDDataUpdater.process_and_merge_data` (lines 130–154): clean the
fresh batch, concatenate after the historical table when one exists, then
deduplicate by `incident_number` keeping the last occurrence. -/
def process_and_merge_data (current : Frame) (historical : Option Frame) : Frame :=
  let c := clean_data (withSource current)
  let merged :=
    match historical with
    | some h => concatFrames h c
    | none => c
  { merged with rows := keepLast merged.rows }

/-- `df['year'] < 2024` on one cell: null years compare false. -/
def yearBefore2024 (v : Val) : Bool :=
  match v with
  | .nat n => n < 2024
  | _ => false

/-- `LAPDDataUpdater.load_historical_data` (lines 111–128): read the most
recent backup, if any, and keep only rows with `year < 2024`. -/
def load_historical_data (backup : Option Frame) : Option Frame :=
  backup.map fun b => { b with rows := b.rows.filter fun r => yearBefore2024 r.year }

/-! ### Helper lemmas on the scalar operations -/

theorem dropWhile_dropWhile (p : Char → Bool) (l : List Char) :
    (l.dropWhile p).dropWhile p = l.dropWhile p := by
  induction l with
  | nil => rfl
  | cons c t ih =>
    by_cases hc : p c
    · simp [List.dropWhile_cons, hc, ih]
    · simp [List.dropWhile_cons, hc]

theorem head?_dropWhile_false {p : Char → Bool} {l : List Char} {a : Char}
    (h : (l.dropWhile p).head? = some a) : p a = false := by
  have := List.head?_dropWhile_not p l
  rw [h] at this
  exact this

theorem dropWhile_eq_self_of_head? {p : Char → Bool} {l : List Char}
    (h : ∀ a, l.head? = some a → p a = false) : l.dropWhile p = l := by
  cases l with
  | nil => rfl
  | cons c t => simp [List.dropWhile_cons, h c rfl]

theorem getLast?_dropWhile (p : Char → Bool) (l : List Char) :
    l.dropWhile p = [] ∨ (l.dropWhile p).getLast? = l.getLast? := by
  induction l with
  | nil => exact Or.inl rfl
  | cons c t ih =>
    by_cases hc : p c
    · have hstep : List.dropWhile p (c :: t) = List.dropWhile p t := by
        simp [List.dropWhile_cons, hc]
      by_cases hnil : t.dropWhile p = []
      · exact Or.inl (hstep.trans hnil)
      · rcases ih with h | h
        · exact absurd h hnil
        · refine Or.inr ?_
          rw [hstep, h]
          cases t with
          | nil => exact absurd rfl hnil
          | cons b bs => rw [List.getLast?_cons_cons]
    · exact Or.inr (by simp [List.dropWhile_cons, hc])

theorem trimChars_idem (l : List Char) : trimChars (trimChars l) = trimChars l := by
  unfold trimChars
  set u := l.dropWhile isWSCh with hu
  set v := (u.reverse).dropWhile isWSCh with hv
  have hvhead : ∀ a, v.head? = some a → isWSCh a = false := fun a h =>
    head?_dropWhile_false (hv ▸ h)
  have hvlast : ∀ a, v.getLast? = some a → isWSCh a = false := by
    intro a h
    rcases getLast?_dropWhile isWSCh u.reverse with hnil | hlast
    · rw [hv, hnil] at h
      exact absurd h (by simp)
    · rw [hv, hlast, List.getLast?_reverse] at h
      exact head?_dropWhile_false (hu ▸ h)
  have h1 : (v.reverse).dropWhile isWSCh = v.reverse := by
    apply dropWhile_eq_self_of_head?
    intro a h
    rw [List.head?_reverse] at h
    exact hvlast a h
  have h2 : v.dropWhile isWSCh = v := dropWhile_eq_self_of_head? hvhead
  rw [h1, List.reverse_reverse, h2]

theorem trimStr_idem (s : String) : trimStr (trimStr s) = trimStr s := by
  unfold trimStr
  exact congrArg String.mk (trimChars_idem s.data)

theorem stripV_stripV (v : Val) : stripV (stripV v) = stripV v := by
  cases v <;> simp [stripV, trimStr_idem]

theorem parseDate_parseDate (v : Val) : parseDate (parseDate v) = parseDate v := by
  cases v with
  | str s => cases h : parseDateStr s <;> simp [parseDate, h]
  | date d => rfl
  | nat n => rfl
  | null => rfl

/-! ### Helper lemmas on `keepLast` (`drop_duplicates(keep='last')`) -/

theorem keepLast_subset {r : Row} : ∀ {l : List Row}, r ∈ keepLast l → r ∈ l := by
  intro l
  induction l with
  | nil => simp [keepLast]
  | cons a t ih =>
    intro h
    unfold keepLast at h
    by_cases hc : t.any fun x => decide (x.incident_number = a.incident_number)
    · rw [if_pos hc] at h
      exact List.mem_cons_of_mem a (ih h)
    · rw [if_neg hc] at h
      rcases List.mem_cons.mp h with h | h
      · exact h ▸ List.mem_cons_self a t
      · exact List.mem_cons_of_mem a (ih h)

theorem keepLast_countP_key (k : Val) :
    ∀ (l : List Row),
      (keepLast l).countP (fun r => decide (r.incident_number = k)) =
        if l.any (fun r => decide (r.incident_number = k)) then 1 else 0 := by
  intro l
  induction l with
  | nil => simp [keepLast]
  | cons a t ih =>
    unfold keepLast
    by_cases hc : t.any fun x => decide (x.incident_number = a.incident_number)
    · rw [if_pos hc, ih]
      by_cases hk : a.incident_number = k
      · have : t.any (fun r => decide (r.incident_number = k)) = true := by
          rcases List.any_eq_true.mp hc with ⟨x, hx, hxk⟩
          exact List.any_eq_true.mpr ⟨x, hx, by simp_all⟩
        simp [List.any_cons, this]
      · simp [List.any_cons, hk]
    · rw [if_neg hc, List.countP_cons, ih]
      by_cases hk : a.incident_number = k
      · have : t.any (fun r => decide (r.incident_number = k)) = false := by
          rw [← Bool.not_eq_true]
          intro hany
          rcases List.any_eq_true.mp hany with ⟨x, hx, hxk⟩
          exact hc (List.any_eq_true.mpr ⟨x, hx, by simp_all⟩)
        simp [List.any_cons, this, hk]
      · simp [List.any_cons, hk]

theorem keepLast_key_mem_right {k : Val} :
    ∀ (l1 l2 : List Row) (r : Row),
      r ∈ keepLast (l1 ++ l2) → r.incident_number = k →
      l2.any (fun x => decide (x.incident_number = k)) = true → r ∈ l2 := by
  intro l1
  induction l1 with
  | nil =>
    intro l2 r h _ _
    exact keepLast_subset h
  | cons a t ih =>
    intro l2 r h hk h2
    rw [List.cons_append] at h
    unfold keepLast at h
    by_cases hc : (t ++ l2).any fun x => decide (x.incident_number = a.incident_number)
    · rw [if_pos hc] at h
      exact ih l2 r h hk h2
    · rw [if_neg hc] at h
      rcases List.mem_cons.mp h with h | h
      · exfalso
        apply hc
        rcases List.any_eq_true.mp h2 with ⟨x, hx, hxk⟩
        refine List.any_eq_true.mpr ⟨x, List.mem_append_right t hx, ?_⟩
        have hxk' : x.incident_number = k := of_decide_eq_true hxk
        have hak : a.incident_number = k := h ▸ hk
        simp [hxk', hak]
      · exact ih l2 r h hk h2

/-! ### Fetch loop (`process_lapd_data.fetch_dataset`, lines 53–88, and
`LAPDDataUpdater.fetch_current_dataset`, lines 75–109).

A paginated fetch is a list of page outcomes: either a successful JSON
batch or a `RequestException`.  The loop accumulates batches; an empty
batch ends the loop normally; an exception prints a warning, breaks the
loop, and the accumulated records collected so far are returned. -/

inductive Page where
  | ok (batch : List Row)
  | err
deriving Repr, DecidableEq

def fetch_dataset : List Page → List Row
  | [] => []
  | .ok [] :: _ => []
  | .ok (r :: b) :: rest => (r :: b) ++ fetch_dataset rest
  | .err :: _ => []

/-! ### Full-build driver (`process_lapd_data.main`, lines 167–238).

A dataset is its vintage label (`name`, `source_year`), the schema of
its raw records, and its page sequence.  `main` fetches each dataset,
keeps the non-empty ones (`if data:`), tags provenance, concatenates,
cleans, and — only when at least one dataset contributed records —
writes the final table (returning `some` of what is written; `none`
models the early `return` with no files written). -/

structure Dataset where
  name : String
  source_year : Val
  schema : Schema
  pages : List Page
deriving Repr, DecidableEq

/-- `main` lines 185–186: tag a fetched batch with its vintage. -/
def tagSource (name : String) (yr : Val) (f : Frame) : Frame :=
  { schema := { f.schema with has_source_dataset := true, has_source_year := true },
    rows := f.rows.map fun r =>
      { r with source_dataset := .str name, source_year := yr } }

def emptySchema : Schema := {}

def concatAll (l : List Frame) : Frame :=
  { schema := l.foldr (fun f acc => orSchema f.schema acc) emptySchema,
    rows := (l.map Frame.rows).flatten }

/-- `main` lines 180–190: one dataset's contribution — fetch, then keep
only non-empty results (`if data:`), tagging provenance. -/
def datasetFrame (ds : Dataset) : Option Frame :=
  let data := fetch_dataset ds.pages
  if data.isEmpty then none
  else some (tagSource ds.name ds.source_year { schema := ds.schema, rows := data })

def process_main (datasets : List Dataset) : Option (Frame × Nat) :=
  let dfs := datasets.filterMap datasetFrame
  if dfs.isEmpty then none
  else some (clean_and_process_data (concatAll dfs))

/-! ### Updater run (`LAPDDataUpdater`, `update_data.py`).

The relevant file-system state: the contents at the two canonical output
paths and the backup directory (parquet backups ordered oldest first, so
`sorted(backup_files)[-1]` is the last element). -/

structure UpdState where
  parquet : Option Frame
  sqlite : Option Frame
  backups : List Frame
  sqliteBackups : List Frame
deriving Repr, DecidableEq

/-- Outcome of the catalog metadata request in `check_for_updates`:
an exception, an empty result list, or a result carrying `updatedAt`
and the computed `days_since_update`. -/
inductive Catalog where
  | err
  | empty
  | ok (updatedAt : Int) (daysSince : Int)
deriving Repr, DecidableEq

/-- `LAPDDataUpdater.check_for_updates` (lines 23–54): returns the
last-updated stamp and whether the dataset counts as recently updated
(strictly fewer than 7 days since update); any exception or an empty
result list yields `(None, False)`. -/
def check_for_updates : Catalog → Option Int × Bool
  | .err => (none, false)
  | .empty => (none, false)
  | .ok u d => (some u, decide (d < 7))

/-- `LAPDDataUpdater.backup_existing_data` (lines 56–73): each existing
output file is renamed (moved) into the backup directory; the original
paths are left without files. -/
def backup_existing_data (s : UpdState) : UpdState :=
  { parquet := none,
    sqlite := none,
    backups := s.backups ++ s.parquet.toList,
    sqliteBackups := s.sqliteBackups ++ s.sqlite.toList }

/-- `LAPDDataUpdater.export_data` (lines 202–220): write the merged table
to both canonical paths. -/
def export_data (df : Frame) (s : UpdState) : UpdState :=
  { s with parquet := some df, sqlite := some df }

/-- `LAPDDataUpdater.update` (lines 222–254): freshness gate, backup,
fetch, merge with the historical table read back from the most recent
backup, export. -/
def updater_update (force : Bool) (cat : Catalog) (fetched : Frame)
    (s : UpdState) : UpdState :=
  let isRecent := (check_for_updates cat).2
  if !force && !isRecent then s
  else
    let s1 := backup_existing_data s
    if fetched.rows.isEmpty then s1
    else
      let historical := load_historical_data s1.backups.getLast?
      let final := process_and_merge_data fetched historical
      export_data final s1

/-! ### Sample data for witnesses and counterexamples -/

def rowGoodDate : Row :=
  { occurrence_date := .str "2024-03-04", incident_number := .str "A1" }

def rowBadDate : Row :=
  { occurrence_date := .str "garbage", incident_number := .str "B7" }

def schOcc : Schema :=
  { has_occurrence_date := true, has_incident_number := true }

def tinyFrame : Frame := ⟨schOcc, [rowGoodDate]⟩

def emptyFrameOcc : Frame := ⟨schOcc, []⟩

def updState0 : UpdState := ⟨some tinyFrame, some tinyFrame, [], []⟩

/-! ### C10 -/

/-- C10: if the freshness-metadata check fails for any reason (an
exception during the catalog request, or the catalog returning no
results), the updater treats the dataset as not recently updated, and an
unforced update run then performs no fetch, no backup, and no file
writes (the state is returned unchanged); the freshness threshold is
strictly fewer than 7 days since the dataset's last update. -/
theorem c10_freshness_check_gates_update :
    (check_for_updates Catalog.err = (none, false) ∧
      check_for_updates Catalog.empty = (none, false)) ∧
    (∀ u d : Int, check_for_updates (.ok u d) = (some u, decide (d < 7))) ∧
    (∀ (cat : Catalog) (fetched : Frame) (s : UpdState),
      (check_for_updates cat).2 = false →
      updater_update false cat fetched s = s) := by
  refine ⟨⟨rfl, rfl⟩, fun u d => rfl, ?_⟩
  intro cat fetched s h
  simp [updater_update, h]

/-- Witness for C10 at a concrete failed catalog check and non-trivial
state: the run changes nothing. -/
theorem c10_witness :
    updater_update false Catalog.err tinyFrame updState0 = updState0 :=
  c10_freshness_check_gates_update.2.2 Catalog.err tinyFrame updState0 rfl

/-! ### C6 -/

/-- C6 counterexample: a forced run whose fetch returns zero records
aborts after `backup_existing_data` has already renamed both files into
the backup directory, so the last-persisted parquet and SQLite files do
NOT remain at their original paths — the aborted run leaves the original
paths empty (the contents survive only inside `backups/`). -/
theorem c6_counterexample :
    updState0.parquet = some tinyFrame ∧
    updater_update true Catalog.err emptyFrameOcc updState0 =
      { parquet := none, sqlite := none,
        backups := [tinyFrame], sqliteBackups := [tinyFrame] } ∧
    (updater_update true Catalog.err emptyFrameOcc updState0).parquet ≠
      updState0.parquet := by
  refine ⟨rfl, by decide, by decide⟩

/-- C6 amended: a run stopped by the freshness gate leaves the state
untouched; any run that passes the gate first renames the prior parquet
and SQLite files aside into the backup directory rather than deleting
them, so the prior contents always survive — either still at the
original path (gated run) or inside the backup list (backed-up run) —
but an abort after backup leaves the original paths without the files. -/
theorem c6_amended_prior_version_preserved
    (force : Bool) (cat : Catalog) (fetched : Frame) (s : UpdState) (t : Frame) :
    ((!force && !(check_for_updates cat).2) = true →
      updater_update force cat fetched s = s) ∧
    (s.parquet = some t →
      (updater_update force cat fetched s).parquet = some t ∨
        t ∈ (updater_update force cat fetched s).backups) ∧
    (s.sqlite = some t →
      (updater_update force cat fetched s).sqlite = some t ∨
        t ∈ (updater_update force cat fetched s).sqliteBackups) := by
  refine ⟨fun h => by simp [updater_update, h], ?_, ?_⟩
  · intro hp
    by_cases hg : (!force && !(check_for_updates cat).2) = true
    · exact Or.inl (by simp [updater_update, hg, hp])
    · refine Or.inr ?_
      by_cases he : fetched.rows.isEmpty <;>
        simp [updater_update, hg, he, backup_existing_data, export_data, hp]
  · intro hp
    by_cases hg : (!force && !(check_for_updates cat).2) = true
    · exact Or.inl (by simp [updater_update, hg, hp])
    · refine Or.inr ?_
      by_cases he : fetched.rows.isEmpty <;>
        simp [updater_update, hg, he, backup_existing_data, export_data, hp]

/-- Witness for C6 amended: a gated run leaves the state unchanged, and a
forced aborted run keeps the prior parquet content in the backup list. -/
theorem c6_amended_witness :
    updater_update false Catalog.err emptyFrameOcc updState0 = updState0 ∧
    ((updater_update true Catalog.err emptyFrameOcc updState0).parquet =
        some tinyFrame ∨
      tinyFrame ∈ (updater_update true Catalog.err emptyFrameOcc updState0).backups) :=
  ⟨(c6_amended_prior_version_preserved false Catalog.err emptyFrameOcc
      updState0 tinyFrame).1 (by decide),
    (c6_amended_prior_version_preserved true Catalog.err emptyFrameOcc
      updState0 tinyFrame).2.1 rfl⟩

/-! ### C9 -/

/-- C9 counterexample: a vintage whose pagination fails after one
successful page does NOT contribute zero records — `fetch_dataset`
catches the exception inside the loop, breaks, and returns the records
accumulated so far, and `main` keeps that partial batch (here one record
survives into the written table). -/
theorem c9_counterexample :
    fetch_dataset [Page.ok [rowGoodDate], Page.err] = [rowGoodDate] ∧
    ([rowGoodDate] : List Row) ≠ [] ∧
    (process_main [⟨"LAPD Calls for Service 2024", Val.nat 2024, schOcc,
        [Page.ok [rowGoodDate], Page.err]⟩]).map (fun p => p.1.rows.length) =
      some 1 := by
  refine ⟨rfl, by decide, by decide⟩

/-- C9 amended: a network/API error mid-pagination stops only that
vintage's fetch loop; the vintage contributes exactly the records
fetched before the failure (the concatenation of the successfully
fetched non-empty pages), not necessarily zero records, and processing
continues with the other vintages. -/
theorem c9_amended_partial_records_kept (bs : List (List Row)) (rest : List Page)
    (hne : ∀ b ∈ bs, b ≠ []) :
    fetch_dataset (bs.map Page.ok ++ Page.err :: rest) = bs.flatten := by
  induction bs with
  | nil => rfl
  | cons b bt ih =>
    have hb : b ≠ [] := hne b (List.mem_cons_self b bt)
    cases b with
    | nil => exact absurd rfl hb
    | cons r rb =>
      simp only [List.map_cons, List.cons_append, fetch_dataset, List.flatten_cons]
      exact congrArg (fun l => r :: (rb ++ l))
        (ih (fun x hx => hne x (List.mem_cons_of_mem _ hx)))

/-- Witness for C9 amended at a concrete two-page fetch that fails on the
third request. -/
theorem c9_amended_witness :
    fetch_dataset ([[rowGoodDate], [rowBadDate]].map Page.ok ++ Page.err :: []) =
      [rowGoodDate, rowBadDate] :=
  c9_amended_partial_records_kept [[rowGoodDate], [rowBadDate]] []
    (by intro b hb; fin_cases hb <;> decide)

/-! ### C8 -/

def dsBadDate : Dataset :=
  ⟨"LAPD Calls for Service 2020", Val.nat 2020, schOcc, [Page.ok [rowBadDate]]⟩

/-- C8 counterexample: one vintage yields a single record whose date
cannot be parsed; the canonical table is empty after cleaning, yet
`main` proceeds to export — files ARE written (result is `some`, the
model's marker that the parquet/SQLite write path ran), with an empty
table, contradicting the claim that an empty canonical table is
terminal with no files written. -/
theorem c8_counterexample :
    (process_main [dsBadDate]).isSome = true ∧
    (process_main [dsBadDate]).map (fun p => p.1.rows) = some [] := by
  refine ⟨by decide, by decide⟩

/-- C8 amended: only the zero-records conditions are terminal with no
writes — in the full build, if every vintage fetches zero records `main`
returns before writing, and if any vintage contributes records the
export runs (even when the cleaned canonical table is empty); in the
update path, a fetch that yields zero records aborts the run right after
the backup step, with no export. -/
theorem c8_amended_no_data_handling :
    (∀ datasets : List Dataset,
      ((∀ ds ∈ datasets, fetch_dataset ds.pages = []) →
        process_main datasets = none) ∧
      ((∃ ds ∈ datasets, fetch_dataset ds.pages ≠ []) →
        (process_main datasets).isSome = true)) ∧
    (∀ (cat : Catalog) (sch : Schema) (s : UpdState),
      updater_update true cat ⟨sch, []⟩ s = backup_existing_data s) := by
  refine ⟨?_, ?_⟩
  · intro datasets
    constructor
    · intro hall
      have hnil : datasets.filterMap datasetFrame = [] := by
        refine List.filterMap_eq_nil_iff.mpr ?_
        intro ds hds
        simp [datasetFrame, hall ds hds]
      simp [process_main, hnil]
    · rintro ⟨ds, hds, hne⟩
      have hnotnil : datasets.filterMap datasetFrame ≠ [] := by
        intro hnil
        have h0 := List.filterMap_eq_nil_iff.mp hnil ds hds
        have he : (fetch_dataset ds.pages).isEmpty = false := by
          cases h : (fetch_dataset ds.pages).isEmpty
          · rfl
          · exact absurd (List.isEmpty_iff.mp h) hne
        simp [datasetFrame, he] at h0
      have he2 : (datasets.filterMap datasetFrame).isEmpty = false := by
        cases h : (datasets.filterMap datasetFrame).isEmpty
        · rfl
        · exact absurd (List.isEmpty_iff.mp h) hnotnil
      simp [process_main, he2]
  · intro cat sch s
    simp [updater_update]

/-- Witness for C8 amended: all-empty vintages produce no writes, and a
vintage with records (even records that all fail date cleaning) leads to
a write. -/
theorem c8_amended_witness :
    process_main [⟨"LAPD Calls for Service 2019", Val.nat 2019, schOcc, []⟩] =
      none ∧
    (process_main [dsBadDate]).isSome = true :=
  ⟨(c8_amended_no_data_handling.1 [⟨"LAPD Calls for Service 2019",
      Val.nat 2019, schOcc, []⟩]).1 (by intro ds hds; fin_cases hds; rfl),
    (c8_amended_no_data_handling.1 [dsBadDate]).2 ⟨dsBadDate,
      List.mem_cons_self _ _, by decide⟩⟩

/-! ### Closed form of the full-build normalizer

`normalizeCols` is a single map over the rows (plus one data-dependent
boolean: the all-null test that the `dispatch_time` loop iteration sees
on the `hour` column).  The closed form below is proved equal to the
staged pipeline and is what the claim proofs compute with. -/

/-- The `hour` column as left by the `occurrence_time` loop iteration
(the test `df['hour'].isna().all()` seen there is always true, because
`hour` was just set to all-`NaT`). -/
def hourAfterOcc (s : Schema) (r : Row) : Val :=
  if s.has_time_occ || s.has_occurrence_time then
    parseHour (if s.has_time_occ then r.time_occ else r.occurrence_time)
  else Val.null

/-- The all-null test on `hour` as seen by the `dispatch_time` loop
iteration of `clean_and_process_data`. -/
def condDispatch (f : Frame) : Bool :=
  f.rows.all fun r => (hourAfterOcc f.schema r).isNull

/-- Composite per-row action of all column passes of `normalizeCols`. -/
def normRow (s : Schema) (c : Bool) (r : Row) : Row :=
  let rpt := if s.has_date_rptd then r.date_rptd else r.report_date
  let occ := if s.has_date_occ then r.date_occ else r.occurrence_date
  let otime := if s.has_time_occ then r.time_occ else r.occurrence_time
  let rptP := if s.has_date_rptd || s.has_report_date then parseDate rpt else rpt
  let occP := if s.has_date_occ || s.has_occurrence_date then parseDate occ else occ
  let dispP := if s.has_dispatch_date then parseDate r.dispatch_date else r.dispatch_date
  let primary :=
    if s.has_date_occ || s.has_occurrence_date then occP
    else if s.has_date_rptd || s.has_report_date then rptP
    else if s.has_dispatch_date then dispP
    else Val.null
  let resolved :=
    if s.has_call_type_text then r.call_type_text
    else if s.has_call_type_description then r.call_type_description
    else r.call_type
  { date_rptd := if s.has_date_rptd then .null else r.date_rptd
    date_occ := if s.has_date_occ then .null else r.date_occ
    time_occ := if s.has_time_occ then .null else r.time_occ
    report_date := rptP
    occurrence_date := occP
    occurrence_time := otime
    dispatch_date := dispP
    dispatch_time := r.dispatch_time
    call_type_text := r.call_type_text
    call_type_description := r.call_type_description
    call_type :=
      if s.has_call_type_text || s.has_call_type_description || s.has_call_type
      then stripV resolved else resolved
    area_occ := if s.has_area_occ then stripV r.area_occ else r.area_occ
    incident_number := r.incident_number
    primary_date := primary
    year := yearV primary
    month := monthV primary
    day_of_week := dayNameV primary
    hour :=
      if s.has_dispatch_time && c then parseHour r.dispatch_time
      else hourAfterOcc s r
    occurrence_time_hour :=
      if s.has_time_occ || s.has_occurrence_time then parseHour otime
      else r.occurrence_time_hour
    dispatch_time_hour :=
      if s.has_dispatch_time then parseHour r.dispatch_time
      else r.dispatch_time_hour
    source_dataset := r.source_dataset
    source_year := r.source_year }

/-- Composite schema action of all column passes of `normalizeCols`. -/
def normSchema (s : Schema) : Schema :=
  { s with
    has_date_rptd := false
    has_date_occ := false
    has_time_occ := false
    has_report_date := s.has_date_rptd || s.has_report_date
    has_occurrence_date := s.has_date_occ || s.has_occurrence_date
    has_occurrence_time := s.has_time_occ || s.has_occurrence_time
    has_call_type :=
      s.has_call_type_text || s.has_call_type_description || s.has_call_type
    has_primary_date := true
    has_year := true
    has_month := true
    has_day_of_week := true
    has_hour := true
    has_occurrence_time_hour :=
      s.has_time_occ || s.has_occurrence_time || s.has_occurrence_time_hour
    has_dispatch_time_hour := s.has_dispatch_time || s.has_dispatch_time_hour }

theorem normalizeCols_eq (f : Frame) :
    normalizeCols f =
      ⟨normSchema f.schema, f.rows.map (normRow f.schema (condDispatch f))⟩ := by
  unfold normalizeCols stripText dispatchTimePhase occTimePhase addDerived
    selectPrimary parseDates renameCols resolveCallType
  refine congrArg₂ Frame.mk ?_ ?_
  · simp [normSchema]
  · simp only [List.map_map, List.all_map, Function.comp_def, Bool.not_true,
      Bool.false_or, Bool.true_or, Bool.or_true, Bool.and_true, Bool.true_and]
    apply List.map_congr_left
    intro r _
    simp [normRow, hourAfterOcc, condDispatch, Val.isNull, List.all_map,
      Function.comp_def]

/-- Composite per-row action of the column passes of `normalizeColsU`
(the updater's simplified cleaning). -/
def normRowU (s : Schema) (r : Row) : Row :=
  let rpt := if s.has_date_rptd then r.date_rptd else r.report_date
  let occ := if s.has_date_occ then r.date_occ else r.occurrence_date
  let otime := if s.has_time_occ then r.time_occ else r.occurrence_time
  let rptP := if s.has_date_rptd || s.has_report_date then parseDate rpt else rpt
  let occP := if s.has_date_occ || s.has_occurrence_date then parseDate occ else occ
  let dispP := if s.has_dispatch_date then parseDate r.dispatch_date else r.dispatch_date
  let primary :=
    if s.has_date_occ || s.has_occurrence_date then occP
    else if s.has_date_rptd || s.has_report_date then rptP
    else if s.has_dispatch_date then dispP
    else Val.null
  { r with
    date_rptd := if s.has_date_rptd then .null else r.date_rptd
    date_occ := if s.has_date_occ then .null else r.date_occ
    time_occ := if s.has_time_occ then .null else r.time_occ
    report_date := rptP
    occurrence_date := occP
    occurrence_time := otime
    dispatch_date := dispP
    primary_date := primary
    year := yearV primary
    month := monthV primary
    day_of_week := dayNameV primary
    call_type_text :=
      if s.has_call_type_text then stripV r.call_type_text else r.call_type_text
    area_occ := if s.has_area_occ then stripV r.area_occ else r.area_occ }

/-- Composite schema action of the column passes of `normalizeColsU`. -/
def normSchemaU (s : Schema) : Schema :=
  { s with
    has_date_rptd := false
    has_date_occ := false
    has_time_occ := false
    has_report_date := s.has_date_rptd || s.has_report_date
    has_occurrence_date := s.has_date_occ || s.has_occurrence_date
    has_occurrence_time := s.has_time_occ || s.has_occurrence_time
    has_primary_date := true
    has_year := true
    has_month := true
    has_day_of_week := true }

theorem normalizeColsU_eq (f : Frame) :
    normalizeColsU f = ⟨normSchemaU f.schema, f.rows.map (normRowU f.schema)⟩ := by
  unfold normalizeColsU stripTextU addDerivedU selectPrimary parseDates renameCols
  refine congrArg₂ Frame.mk ?_ ?_
  · simp [normSchemaU]
  · simp only [List.map_map, Function.comp_def]
    apply List.map_congr_left
    intro r _
    simp [normRowU]

/-! ### C2 -/

/-- C2: in both normalizers, `primary_date` is chosen by strict priority —
the parsed `occurrence_date` (possibly arriving under the raw name
`date_occ`) if that column exists, else the parsed `report_date`
(possibly `date_rptd`), else the parsed `dispatch_date`, else null for
every record of the batch; in particular, when all three are present the
occurrence date wins. -/
theorem c2_primary_date_priority (f : Frame) :
    ((normalizeCols f).rows.map Row.primary_date =
      f.rows.map fun r =>
        if f.schema.has_date_occ || f.schema.has_occurrence_date then
          parseDate (if f.schema.has_date_occ then r.date_occ else r.occurrence_date)
        else if f.schema.has_date_rptd || f.schema.has_report_date then
          parseDate (if f.schema.has_date_rptd then r.date_rptd else r.report_date)
        else if f.schema.has_dispatch_date then parseDate r.dispatch_date
        else Val.null) ∧
    ((normalizeColsU f).rows.map Row.primary_date =
      f.rows.map fun r =>
        if f.schema.has_date_occ || f.schema.has_occurrence_date then
          parseDate (if f.schema.has_date_occ then r.date_occ else r.occurrence_date)
        else if f.schema.has_date_rptd || f.schema.has_report_date then
          parseDate (if f.schema.has_date_rptd then r.date_rptd else r.report_date)
        else if f.schema.has_dispatch_date then parseDate r.dispatch_date
        else Val.null) := by
  constructor
  · rw [normalizeCols_eq]
    simp only [List.map_map, Function.comp_def]
    apply List.map_congr_left
    intro r _
    by_cases h1 : f.schema.has_date_occ <;>
      by_cases h2 : f.schema.has_occurrence_date <;>
      by_cases h3 : f.schema.has_date_rptd <;>
      by_cases h4 : f.schema.has_report_date <;>
      by_cases h5 : f.schema.has_dispatch_date <;>
      simp [normRow, h1, h2, h3, h4, h5]
  · rw [normalizeColsU_eq]
    simp only [List.map_map, Function.comp_def]
    apply List.map_congr_left
    intro r _
    by_cases h1 : f.schema.has_date_occ <;>
      by_cases h2 : f.schema.has_occurrence_date <;>
      by_cases h3 : f.schema.has_date_rptd <;>
      by_cases h4 : f.schema.has_report_date <;>
      by_cases h5 : f.schema.has_dispatch_date <;>
      simp [normRowU, h1, h2, h3, h4, h5]

/-! ### C3 -/

def fBadDate : Frame := ⟨schOcc, [rowBadDate]⟩

/-- C3: both normalizers drop exactly the records with a null
`primary_date` — the output contains none, the reported removed-count
equals input size minus output size, and a batch with zero parseable
dates yields an empty output (not an error). -/
theorem c3_completeness (f : Frame) :
    (∀ r ∈ (clean_and_process_data f).1.rows, r.primary_date ≠ Val.null) ∧
    ((clean_and_process_data f).2 =
      f.rows.length - (clean_and_process_data f).1.rows.length) ∧
    (∀ r ∈ (clean_data f).rows, r.primary_date ≠ Val.null) ∧
    ((normalizeCols f).rows.all (fun r => r.primary_date.isNull) →
      (clean_and_process_data f).1.rows = []) := by
  refine ⟨?_, ?_, ?_, ?_⟩
  · intro r hr hnull
    have h2 := (List.mem_filter.mp hr).2
    rw [hnull] at h2
    simp [Val.isNull] at h2
  · have hlen : (normalizeCols f).rows.length = f.rows.length := by
      rw [normalizeCols_eq]
      simp
    have hkept : (clean_and_process_data f).1.rows =
        (normalizeCols f).rows.filter fun r => !r.primary_date.isNull := rfl
    show (normalizeCols f).rows.length -
      ((normalizeCols f).rows.filter fun r => !r.primary_date.isNull).length = _
    rw [hkept, hlen]
  · intro r hr hnull
    have h2 := (List.mem_filter.mp hr).2
    rw [hnull] at h2
    simp [Val.isNull] at h2
  · intro hall
    refine List.filter_eq_nil_iff.mpr ?_
    intro r hr
    have := List.all_eq_true.mp hall r hr
    simp [this]

/-- Witness for C3: a surviving record of a well-formed batch has a
non-null `primary_date` on both paths, and the all-garbage batch cleans
to the empty table. -/
theorem c3_witness :
    ((normRow schOcc (condDispatch tinyFrame) rowGoodDate).primary_date ≠
      Val.null) ∧
    ((normRowU schOcc rowGoodDate).primary_date ≠ Val.null) ∧
    ((clean_and_process_data fBadDate).1.rows = []) :=
  ⟨(c3_completeness tinyFrame).1 _ (by decide),
    (c3_completeness tinyFrame).2.2.1 _ (by decide),
    (c3_completeness fBadDate).2.2.2 (by decide)⟩

/-! ### C4 -/

def rowFire : Row :=
  { call_type_text := .str "FIREWORKS", call_type_description := .str "OTHER",
    occurrence_date := .str "2024-03-04", incident_number := .str "F1" }

def fFire : Frame :=
  ⟨{ has_call_type_text := true, has_call_type_description := true,
     has_occurrence_date := true, has_incident_number := true }, [rowFire]⟩

/-- C4 counterexample: on the incremental-update path, a raw record with
`call_type_text = "FIREWORKS"` and `call_type_description = "OTHER"`
keeps NO canonical `call_type` at all — `LAPDDataUpdater.clean_data`
never derives `call_type` (its rename map has no call-type entries and
there is no resolution step), so the claim fails for that path; the
full-build path does produce `"FIREWORKS"`. -/
theorem c4_counterexample :
    (clean_data fFire).schema.has_call_type = false ∧
    (clean_data fFire).rows.map Row.call_type = [Val.null] ∧
    (clean_data fFire).rows.length = 1 ∧
    (clean_and_process_data fFire).1.rows.map Row.call_type =
      [Val.str "FIREWORKS"] := by
  refine ⟨by decide, by decide, by decide, by decide⟩

/-- C4 amended: only the full-build normalizer resolves `call_type`
(preferring `call_type_text`, else `call_type_description`, else an
existing `call_type`, trimmed); the incremental-update path leaves
`call_type` exactly as it came in (present only if already present) and
merely trims `call_type_text`. -/
theorem c4_amended_call_type_resolution (f : Frame) :
    ((normalizeCols f).rows.map Row.call_type =
      f.rows.map fun r =>
        if f.schema.has_call_type_text then stripV r.call_type_text
        else if f.schema.has_call_type_description then stripV r.call_type_description
        else if f.schema.has_call_type then stripV r.call_type
        else r.call_type) ∧
    ((normalizeCols f).schema.has_call_type =
      (f.schema.has_call_type_text || f.schema.has_call_type_description ||
        f.schema.has_call_type)) ∧
    ((normalizeColsU f).schema.has_call_type = f.schema.has_call_type) ∧
    ((normalizeColsU f).rows.map Row.call_type = f.rows.map Row.call_type) ∧
    ((normalizeColsU f).rows.map Row.call_type_text =
      f.rows.map fun r =>
        if f.schema.has_call_type_text then stripV r.call_type_text
        else r.call_type_text) := by
  refine ⟨?_, ?_, ?_, ?_, ?_⟩
  · rw [normalizeCols_eq]
    simp only [List.map_map, Function.comp_def]
    apply List.map_congr_left
    intro r _
    by_cases h1 : f.schema.has_call_type_text <;>
      by_cases h2 : f.schema.has_call_type_description <;>
      by_cases h3 : f.schema.has_call_type <;>
      simp [normRow, h1, h2, h3]
  · rw [normalizeCols_eq]
    simp [normSchema]
  · rw [normalizeColsU_eq]
    simp [normSchemaU]
  · rw [normalizeColsU_eq]
    simp only [List.map_map, Function.comp_def]
    apply List.map_congr_left
    intro r _
    simp [normRowU]
  · rw [normalizeColsU_eq]
    simp only [List.map_map, Function.comp_def]
    apply List.map_congr_left
    intro r _
    by_cases h1 : f.schema.has_call_type_text <;> simp [normRowU, h1]

/-! ### C5 -/

def rowOldA1 : Row :=
  { incident_number := .str "A1", year := .nat 2020 }

def histF : Frame :=
  ⟨{ has_incident_number := true, has_year := true }, [rowOldA1]⟩

/-- C5: an incremental update with a historical table keeps from it
exactly the rows whose `year` is strictly below the 2024 boundary
(rows with `year` ≥ 2024 — or no year — are removed), and the merge
concatenates the freshly cleaned batch after those historical rows
(before the final dedup by `incident_number`). -/
theorem c5_boundary_year_replacement (b fresh h : Frame) :
    (load_historical_data (some b) =
      some { b with rows := b.rows.filter fun r => yearBefore2024 r.year }) ∧
    (∀ r : Row, r ∈ (b.rows.filter fun r => yearBefore2024 r.year) ↔
      (r ∈ b.rows ∧ ∃ n : Nat, r.year = Val.nat n ∧ n < 2024)) ∧
    (load_historical_data none = none) ∧
    ((process_and_merge_data fresh (some h)).rows =
      keepLast (h.rows ++ (clean_data (withSource fresh)).rows)) := by
  refine ⟨rfl, ?_, rfl, rfl⟩
  intro r
  rw [List.mem_filter]
  constructor
  · rintro ⟨hm, hy⟩
    refine ⟨hm, ?_⟩
    unfold yearBefore2024 at hy
    cases hcase : r.year with
    | nat n =>
      rw [hcase] at hy
      exact ⟨n, rfl, by exact_mod_cast of_decide_eq_true hy⟩
    | str s => rw [hcase] at hy; exact absurd hy (by simp)
    | date d => rw [hcase] at hy; exact absurd hy (by simp)
    | null => rw [hcase] at hy; exact absurd hy (by simp)
  · rintro ⟨hm, n, hn, hlt⟩
    exact ⟨hm, by simp [yearBefore2024, hn, hlt]⟩

/-- Witness for C5 at concrete tables: the 2020 historical row passes the
boundary filter. -/
theorem c5_witness :
    rowOldA1 ∈ (histF.rows.filter fun r => yearBefore2024 r.year) :=
  ((c5_boundary_year_replacement histF tinyFrame histF).2.1 rowOldA1).mpr
    ⟨by decide, 2020, rfl, by decide⟩

/-! ### C1 -/

/-- C1: after an incremental merge, for any `incident_number` present in
both the historical table and the cleaned fresh batch (with a single
fresh record carrying it), the final table contains exactly one record
with that key, and it is the freshly fetched version — dedup keeps the
last occurrence in concatenation order, and fresh rows come after
historical rows. -/
theorem c1_dedup_fresh_wins (fresh hist : Frame) (k : Val) (rf : Row)
    (hmem : rf ∈ (clean_data (withSource fresh)).rows)
    (hkey : rf.incident_number = k)
    (huniq : ∀ r ∈ (clean_data (withSource fresh)).rows,
      r.incident_number = k → r = rf)
    (hh : ∃ rh ∈ hist.rows, rh.incident_number = k) :
    ((process_and_merge_data fresh (some hist)).rows.countP
        (fun r => decide (r.incident_number = k)) = 1) ∧
    (∀ r ∈ (process_and_merge_data fresh (some hist)).rows,
      r.incident_number = k → r = rf) := by
  have hrows : (process_and_merge_data fresh (some hist)).rows =
      keepLast (hist.rows ++ (clean_data (withSource fresh)).rows) := rfl
  have hany : ((clean_data (withSource fresh)).rows).any
      (fun r => decide (r.incident_number = k)) = true :=
    List.any_eq_true.mpr ⟨rf, hmem, by simp [hkey]⟩
  constructor
  · rw [hrows, keepLast_countP_key]
    have happ : (hist.rows ++ (clean_data (withSource fresh)).rows).any
        (fun r => decide (r.incident_number = k)) = true := by
      rw [List.any_append, hany]
      simp
    rw [happ]
    simp
  · intro r hr hk2
    rw [hrows] at hr
    exact huniq r
      (keepLast_key_mem_right hist.rows (clean_data (withSource fresh)).rows
        r hr hk2 hany) hk2

def freshCleanA1 : Row := ((clean_data (withSource tinyFrame)).rows).getD 0 {}

/-- Witness for C1: incident "A1" appears in the 2020 historical table
and in the fresh batch; after the merge exactly one "A1" record remains. -/
theorem c1_witness :
    (process_and_merge_data tinyFrame (some histF)).rows.countP
      (fun r => decide (r.incident_number = Val.str "A1")) = 1 :=
  (c1_dedup_fresh_wins tinyFrame histF (Val.str "A1") freshCleanA1
    (by decide) (by decide) (by decide)
    ⟨rowOldA1, by decide, by decide⟩).1

/-! ### C7 -/

theorem normSchema_idem (s : Schema) : normSchema (normSchema s) = normSchema s := by
  simp only [normSchema]
  congr 1 <;> simp

theorem normRow_idem (s : Schema) (c : Bool) (r : Row) :
    normRow (normSchema s) c (normRow s c r) = normRow s c r := by
  simp only [normRow, normSchema, hourAfterOcc, Bool.false_or, Bool.or_false]
  congr 1 <;> (repeat' split) <;>
    simp_all [parseDate_parseDate, stripV_stripV]

theorem condDispatch_normalized (f : Frame) :
    condDispatch ⟨normSchema f.schema,
        f.rows.map (normRow f.schema (condDispatch f))⟩ = condDispatch f := by
  unfold condDispatch
  rw [List.all_map]
  refine congrArg f.rows.all (funext fun r => ?_)
  by_cases h1 : f.schema.has_time_occ <;>
    by_cases h2 : f.schema.has_occurrence_time <;>
    simp [hourAfterOcc, normRow, normSchema, Function.comp_def, h1, h2]

/-- The column passes of `clean_and_process_data` are idempotent when no
rows are removed in between. -/
theorem normalizeCols_idem (f : Frame) :
    normalizeCols (normalizeCols f) = normalizeCols f := by
  rw [normalizeCols_eq f, normalizeCols_eq, condDispatch_normalized]
  refine congrArg₂ Frame.mk (normSchema_idem f.schema) ?_
  rw [List.map_map]
  apply List.map_congr_left
  intro r _
  exact normRow_idem f.schema (condDispatch f) r

def rowHourA : Row :=
  { occurrence_date := .str "garbage", occurrence_time := .str "12:00:00",
    dispatch_time := .str "07:00:00" }

def rowHourB : Row :=
  { occurrence_date := .str "2024-01-02", occurrence_time := .str "bad",
    dispatch_time := .str "09:00:00" }

def fHourTrap : Frame :=
  ⟨{ has_occurrence_date := true, has_occurrence_time := true,
     has_dispatch_time := true }, [rowHourA, rowHourB]⟩

/-- C7 counterexample: re-normalizing the normalizer's own output can
change the `hour` field.  The first pass sees a parseable
`occurrence_time` (on a row that is then dropped for its invalid date),
so `hour` is not all-null and the `dispatch_time` fallback does not
fire; the surviving row keeps `hour = null`.  The second pass, run on
the surviving row alone, finds `hour` all-null after recomputing the
occurrence hours and falls back to `dispatch_time`, setting `hour = 9`. -/
theorem c7_counterexample :
    ((clean_and_process_data fHourTrap).1.rows.map Row.hour = [Val.null]) ∧
    ((clean_and_process_data
        (clean_and_process_data fHourTrap).1).1.rows.map Row.hour =
      [Val.nat 9]) ∧
    (clean_and_process_data (clean_and_process_data fHourTrap).1).1 ≠
      (clean_and_process_data fHourTrap).1 := by
  refine ⟨by decide, by decide, by decide⟩

/-- C7 amended: the rename/derivation column passes themselves are
idempotent (applying them a second time changes nothing), and the full
normalizer — column passes plus the drop of null-date records — is
idempotent provided the first pass dropped no records; when records were
dropped, the `hour` fallback condition can evaluate differently on the
smaller batch and change `hour` (and only then). -/
theorem c7_idempotent_renormalization (f : Frame) :
    normalizeCols (normalizeCols f) = normalizeCols f ∧
    ((clean_and_process_data f).1.rows.length = f.rows.length →
      clean_and_process_data (clean_and_process_data f).1 =
        ((clean_and_process_data f).1, 0)) := by
  refine ⟨normalizeCols_idem f, ?_⟩
  intro hlen
  have hlen0 : (normalizeCols f).rows.length = f.rows.length := by
    rw [normalizeCols_eq]
    simp
  have hfil : (normalizeCols f).rows.filter (fun r => !r.primary_date.isNull) =
      (normalizeCols f).rows := by
    apply (List.filter_sublist (normalizeCols f).rows).eq_of_length
    have : (clean_and_process_data f).1.rows =
        (normalizeCols f).rows.filter (fun r => !r.primary_date.isNull) := rfl
    rw [this] at hlen
    rw [hlen, hlen0]
  have hdrop : dropInvalidDates (normalizeCols f) = normalizeCols f := by
    unfold dropInvalidDates
    rw [hfil]
  have hg : (clean_and_process_data f).1 = normalizeCols f := hdrop
  rw [hg]
  show (dropInvalidDates (normalizeCols (normalizeCols f)),
    (normalizeCols (normalizeCols f)).rows.length -
      (dropInvalidDates (normalizeCols (normalizeCols f))).rows.length) = _
  rw [normalizeCols_idem f, hdrop, Nat.sub_self]

/-- Witness for C7 amended: a batch that loses no records re-normalizes
to itself with zero further drops. -/
theorem c7_witness :
    clean_and_process_data (clean_and_process_data tinyFrame).1 =
      ((clean_and_process_data tinyFrame).1, 0) :=
  (c7_idempotent_renormalization tinyFrame).2 (by decide)
